import Mathlib

/- Shallow embedding of the query-understanding core of the ai-event-analyzer
repository: src/utils/helpers.py, src/services/filter_service.py,
src/services/anomaly_service.py and src/services/comparison_service.py.

Modelling conventions:
* Python strings are Lean `String`s / `List Char`; `str.lower()` / `str.upper()`
  are character-wise `Char.toLower` / `Char.toUpper` (the queries involved are
  ASCII).
* A pandas DataFrame is a list of rows; a null cell is `none`.
* pandas timestamps are records carrying the accessor values the code reads
  (`dt.date`, `dt.month`, `dt.day`, `dt.hour`, `dt.dayofweek`); a NaT entry is
  `none`.
* Floating-point statistics are exact rationals.  The standard deviation
  `std = sqrt(var)` is irrational, so every comparison of a count `c` against
  `mean + k*std` (and every z-score threshold `(c-mean)/std > t`) is embedded
  by the algebraically equivalent squared comparison
  `c > mean ∧ (c-mean)^2 > k^2*var`, which is exact over ℚ.  `std` being NaN
  (pandas `std()` with ddof=1 on fewer than two values) is modelled by the
  variance being `none`; every comparison against NaN is false, as in Python.
* Python regular-expression search is embedded by hand-compiled backtracking
  scanners for the concrete patterns of the source, enumerating alternatives
  in the order the regex engine tries them. -/

namespace EventAnalyzer

/-- Removes duplicates keeping the first occurrence, with an accumulator of
already seen elements.  Models Python's `list(dict.fromkeys(xs))`
(helpers.py line 47) and pandas groupby key collection. -/
def dedupAux [DecidableEq α] (seen : List α) : List α → List α
  | [] => []
  | x :: xs => if x ∈ seen then dedupAux seen xs else x :: dedupAux (x :: seen) xs

/-- `list(dict.fromkeys(xs))`: duplicates removed, first occurrences kept. -/
def dedupKeepFirst [DecidableEq α] (l : List α) : List α := dedupAux [] l

/-- Python `query.lower()` as a character list. -/
def toLowerL (s : String) : List Char := s.toList.map Char.toLower

/-- Python `query.upper()` as a character list. -/
def toUpperL (s : String) : List Char := s.toList.map Char.toUpper

/-- Python's substring test `needle in hay`. -/
def containsSub : List Char → List Char → Bool
  | [], needle => needle.isEmpty
  | c :: cs, needle => needle.isPrefixOf (c :: cs) || containsSub cs needle

/-- Index of the first occurrence of `needle` in `hay` (Python `hay.find`),
used to state what "first-occurrence order" means. -/
def idxOfSub (hay needle : List Char) : Option Nat :=
  match hay with
  | [] => if needle.isEmpty then some 0 else none
  | c :: t =>
    if needle.isPrefixOf (c :: t) then some 0 else (idxOfSub t needle).map (· + 1)

/-- The `months_map` dictionary of `parse_month_from_query`
(helpers.py lines 51-64), in insertion order. -/
def monthsMap : List (String × Nat) :=
  [("januari", 1), ("january", 1), ("jan", 1),
   ("februari", 2), ("february", 2), ("feb", 2),
   ("maret", 3), ("march", 3), ("mar", 3),
   ("april", 4), ("apr", 4),
   ("mei", 5), ("may", 5),
   ("juni", 6), ("june", 6), ("jun", 6),
   ("juli", 7), ("july", 7), ("jul", 7),
   ("agustus", 8), ("august", 8), ("aug", 8), ("ags", 8),
   ("september", 9), ("sept", 9), ("sep", 9),
   ("oktober", 10), ("october", 10), ("oct", 10), ("okt", 10),
   ("november", 11), ("nov", 11),
   ("desember", 12), ("december", 12), ("des", 12), ("dec", 12)]

/-- `parse_month_from_query` (helpers.py lines 49-73): collect the month
number of every variant that occurs in the lowercased query AND is longer
than 3 characters (`if month_str in q and len(month_str) > 3`), then
de-duplicate.  Python's `list(set(...))` has unspecified order; only
membership in the result is ever relied on downstream, and the embedding
de-duplicates keeping first occurrences. -/
def parse_month_from_query (query : String) : List Nat :=
  dedupKeepFirst
    ((monthsMap.filter
        (fun p => containsSub (toLowerL query) p.1.toList && decide (3 < p.1.length))).map
      Prod.snd)

/-! Hand-compiled backtracking matchers for the concrete regular expressions
of helpers.py and comparison_service.py.  A matcher of type `RegexP α` maps a
position (suffix of the subject) to the list of possible `(value, rest)`
outcomes, ordered exactly as the Python regex engine tries them: greedy
quantifiers yield longest-first alternatives, alternations are tried in
written order, and `re.search` takes the first success at the leftmost
matching start position. -/

def RegexP (α : Type) : Type := List Char → List (α × List Char)

/-- Sequential composition of matchers (regex concatenation with
backtracking: all alternatives of `p`, each continued by `q`). -/
def pseq (p : RegexP α) (q : α → RegexP β) : RegexP β :=
  fun s => ((p s).map (fun ar => q ar.1 ar.2)).flatten

/-- The empty pattern, yielding a value. -/
def ppure (a : α) : RegexP α := fun s => [(a, s)]

def isDigitC (c : Char) : Bool := '0' ≤ c && c ≤ '9'

def digitVal (c : Char) : Nat := c.toNat - '0'.toNat

/-- Python `\s` (the queries are ASCII). -/
def isSpaceC (c : Char) : Bool :=
  c = ' ' || c = '\t' || c = '\n' || c = '\r' || c = '\x0b' || c = '\x0c'

def isUpperAZ (c : Char) : Bool := 'A' ≤ c && c ≤ 'Z'

/-- Python `\w` on ASCII input. -/
def isWordC (c : Char) : Bool :=
  isDigitC c || ('a' ≤ c && c ≤ 'z') || isUpperAZ c || c = '_'

/-- `\d{1,2}` with its greedy backtracking order (two digits first), the
value being `int(...)` of the matched digits. -/
def pDigits12 : RegexP Nat := fun s =>
  match s with
  | c1 :: c2 :: rest =>
    if isDigitC c1 then
      if isDigitC c2 then
        [(digitVal c1 * 10 + digitVal c2, rest), (digitVal c1, c2 :: rest)]
      else [(digitVal c1, c2 :: rest)]
    else []
  | [c1] => if isDigitC c1 then [(digitVal c1, [])] else []
  | [] => []

/-- Suffixes of `s` after consuming a run of spaces, longest run first
(the greedy order of `\s*` / `\s+`). -/
def spaceSuffixes : List Char → List (List Char)
  | [] => [[]]
  | c :: cs => if isSpaceC c then spaceSuffixes cs ++ [c :: cs] else [c :: cs]

/-- `\s*`. -/
def pSpaces0 : RegexP Unit := fun s => (spaceSuffixes s).map (fun r => ((), r))

/-- `\s+` (at least one space: the zero-consumption alternative, which
`spaceSuffixes` lists last, is dropped). -/
def pSpaces1 : RegexP Unit := fun s => (spaceSuffixes s).dropLast.map (fun r => ((), r))

/-- A character class such as `[-–to/sd]`. -/
def pClass (cls : List Char) : RegexP Unit := fun s =>
  match s with
  | c :: rest => if cls.contains c then [((), rest)] else []
  | [] => []

/-- A literal string. -/
def pLit (lit : List Char) : RegexP Unit := fun s =>
  if lit.isPrefixOf s then [((), s.drop lit.length)] else []

/-- A single literal character. -/
def pChar (c : Char) : RegexP Unit := fun s =>
  match s with
  | x :: rest => if x = c then [((), rest)] else []
  | [] => []

/-- An alternation of literal words tried in written order, yielding the
matched word. -/
def pAltStrs (alts : List String) : RegexP (List Char) := fun s =>
  alts.filterMap
    (fun w => if w.toList.isPrefixOf s then some (w.toList, s.drop w.length) else none)

/-- `\b` when the previous character is known to be a word character (every
use in the source follows a digit or a letter): succeeds at end of input or
before a non-word character. -/
def pEndWordBoundary : RegexP Unit := fun s =>
  match s with
  | [] => [((), [])]
  | c :: _ => if isWordC c then [] else [((), s)]

/-- `re.search`: try the matcher at each start position from the left and
return the first success. -/
def searchP (p : RegexP α) : List Char → Option α
  | [] => ((p []).head?).map Prod.fst
  | c :: cs =>
    match (p (c :: cs)).head? with
    | some ar => some ar.1
    | none => searchP p cs

/-- The month-name alternation shared by the date-range patterns of
helpers.py line 80 and comparison_service.py line 34, in the written order. -/
def monthAlternation : List String :=
  ["january", "jan", "februari", "feb", "february", "march", "mar", "maret",
   "april", "apr", "may", "mei", "june", "jun", "juni", "july", "jul", "juli",
   "august", "aug", "agustus", "ags", "september", "sept", "sep",
   "october", "oct", "oktober", "okt", "november", "nov",
   "december", "dec", "desember", "des"]

/-- The `months_map` dictionary of the cross-month branch
(helpers.py lines 84-93), in insertion order. -/
def crossMonthsMap : List (String × Nat) :=
  [("january", 1), ("jan", 1), ("februari", 2), ("february", 2), ("feb", 2),
   ("march", 3), ("mar", 3), ("maret", 3), ("april", 4), ("apr", 4),
   ("may", 5), ("mei", 5), ("june", 6), ("jun", 6), ("juni", 6),
   ("july", 7), ("jul", 7), ("juli", 7), ("august", 8), ("aug", 8),
   ("agustus", 8), ("ags", 8), ("september", 9), ("sept", 9), ("sep", 9),
   ("october", 10), ("oct", 10), ("oktober", 10), ("okt", 10),
   ("november", 11), ("nov", 11), ("december", 12), ("dec", 12),
   ("desember", 12), ("des", 12)]

/-- The cross-month pattern of helpers.py line 80:
`(\d{1,2})\s+(MONTH)\s*[-–to/sd]\s*(\d{1,2})\s+(MONTH)`, yielding the two
day values and the two matched month words. -/
def crossAt : RegexP (Nat × List Char × Nat × List Char) :=
  pseq pDigits12 fun d1 =>
  pseq pSpaces1 fun _ =>
  pseq (pAltStrs monthAlternation) fun w1 =>
  pseq pSpaces0 fun _ =>
  pseq (pClass ['-', '–', 't', 'o', '/', 's', 'd']) fun _ =>
  pseq pSpaces0 fun _ =>
  pseq pDigits12 fun d2 =>
  pseq pSpaces1 fun _ =>
  pseq (pAltStrs monthAlternation) fun w2 =>
  ppure (d1, w1, d2, w2)

/-- The same-month pattern of helpers.py line 110:
`tanggal\s*(\d{1,2})\s*[-–sd/]\s*(\d{1,2})`. -/
def sameMonthAt : RegexP (Nat × Nat) :=
  pseq (pLit "tanggal".toList) fun _ =>
  pseq pSpaces0 fun _ =>
  pseq pDigits12 fun d1 =>
  pseq pSpaces0 fun _ =>
  pseq (pClass ['-', '–', 's', 'd', '/']) fun _ =>
  pseq pSpaces0 fun _ =>
  pseq pDigits12 fun d2 =>
  ppure (d1, d2)

/-- The single-date pattern of helpers.py line 120: `tanggal\s*(\d{1,2})\b`. -/
def singleDayAt : RegexP Nat :=
  pseq (pLit "tanggal".toList) fun _ =>
  pseq pSpaces0 fun _ =>
  pseq pDigits12 fun d =>
  pseq pEndWordBoundary fun _ =>
  ppure d

/-- The result shapes of `parse_date_range_from_query`. -/
inductive DateInfo where
  | cross_month (start_day start_month end_day end_month : Nat)
  | same_month (start_day end_day : Nat)
  | single_day (day : Nat)
deriving DecidableEq

/-- `parse_date_range_from_query` (helpers.py lines 75-128): the cross-month
pattern is tried first (its month lookups cannot fail, the alternation words
all being keys of `crossMonthsMap` with nonzero values, so the source's
`if start_month and end_month` always returns when the pattern matched);
then the same-month `tanggal D-D` pattern; then the single-day `tanggal D`
pattern; otherwise `None`. -/
def parse_date_range_from_query (query : String) : Option DateInfo :=
  let q := toLowerL query
  let cross : Option DateInfo :=
    match searchP crossAt q with
    | some (d1, w1, d2, w2) =>
      match crossMonthsMap.lookup (String.mk w1), crossMonthsMap.lookup (String.mk w2) with
      | some m1, some m2 => some (.cross_month d1 m1 d2 m2)
      | _, _ => none
    | none => none
  match cross with
  | some r => some r
  | none =>
    match searchP sameMonthAt q with
    | some (d1, d2) => some (.same_month d1 d2)
    | none => (searchP singleDayAt q).map .single_day

/-- Modelled from the spec: `MONTHS_MAP` is imported by
src/services/comparison_service.py from the config module, but config.py in
src/ does not define it.  Per the spec (§4.1, month extractor), it is the
table of English/Indonesian month-name variants mapping to month numbers
1-12, i.e. the same mapping as helpers.py's `months_map`. -/
def MONTHS_MAP : List (String × Nat) := crossMonthsMap

/-- The date-range-with-month pattern of comparison_service.py line 34:
`(\d{1,2})\s*[-–to/sd]\s*(\d{1,2})\s+(MONTH)`. -/
def dateWithMonthAt : RegexP (Nat × Nat × List Char) :=
  pseq pDigits12 fun d1 =>
  pseq pSpaces0 fun _ =>
  pseq (pClass ['-', '–', 't', 'o', '/', 's', 'd']) fun _ =>
  pseq pSpaces0 fun _ =>
  pseq pDigits12 fun d2 =>
  pseq pSpaces1 fun _ =>
  pseq (pAltStrs monthAlternation) fun w =>
  ppure (d1, d2, w)

/-- The comparison handler's date-range detection
(comparison_service.py lines 33-47): on a match with a known month it yields
`(start_day, end_day, month)`. -/
def comparison_date_with_month (query : String) : Option (Nat × Nat × Nat) :=
  match searchP dateWithMonthAt (toLowerL query) with
  | some (d1, d2, w) =>
    match MONTHS_MAP.lookup (String.mk w) with
    | some m => some (d1, d2, m)
    | none => none
  | none => none

/-- All ways to consume a (possibly empty) run of characters satisfying
`pred`, longest first — the greedy backtracking order of `[A-Z]*`, `[A-Z]{2,}`
and `\d+`.  Each outcome is `(consumed, rest)`. -/
def runAlts (pred : Char → Bool) : List Char → List (List Char × List Char)
  | [] => [([], [])]
  | c :: cs =>
    if pred c then
      ((runAlts pred cs).map (fun tr => (c :: tr.1, tr.2))) ++ [([], c :: cs)]
    else [([], c :: cs)]

/-- A greedy run of at least `minLen` characters satisfying `pred`. -/
def pRunMin (pred : Char → Bool) (minLen : Nat) : RegexP (List Char) := fun s =>
  (runAlts pred s).filter (fun lr => minLen ≤ lr.1.length)

/-- Equipment-code pattern 1 (helpers.py line 37):
`\b([A-Z]{2,}-\d+[A-Z]*)\b`, at a position whose left word boundary has
already been checked. -/
def equipP1 : RegexP (List Char) :=
  pseq (pRunMin isUpperAZ 2) fun letters =>
  pseq (pChar '-') fun _ =>
  pseq (pRunMin isDigitC 1) fun digits =>
  pseq (pRunMin isUpperAZ 0) fun trail =>
  pseq pEndWordBoundary fun _ =>
  ppure (letters ++ '-' :: (digits ++ trail))

/-- Equipment-code pattern 2 (helpers.py line 38):
`\b([A-Z]{2,}\d+[A-Z]*)\b`. -/
def equipP2 : RegexP (List Char) :=
  pseq (pRunMin isUpperAZ 2) fun letters =>
  pseq (pRunMin isDigitC 1) fun digits =>
  pseq (pRunMin isUpperAZ 0) fun trail =>
  pseq pEndWordBoundary fun _ =>
  ppure (letters ++ digits ++ trail)

/-- `re.findall`: scan left to right, at each position whose left context
satisfies the pattern's leading `\b` try the matcher, emit the first
(backtracking-preferred) match and continue after its end, non-overlapping.
`prev` is the character before the current position; the fuel is an upper
bound on the number of scanning steps (each step consumes at least one
character). -/
def findallAux (p : RegexP (List Char)) : Nat → Option Char → List Char → List (List Char)
  | 0, _, _ => []
  | _ + 1, _, [] => []
  | fuel + 1, prev, c :: cs =>
    let boundaryOk := match prev with | none => true | some pc => !isWordC pc
    match (if boundaryOk then (p (c :: cs)).head? else none) with
    | some mr =>
      match mr.1 with
      | [] => []
      | _ :: _ => mr.1 :: findallAux p fuel mr.1.getLast? mr.2
    | none => findallAux p fuel (some c) cs

/-- `extract_equipment_codes` (helpers.py lines 34-47): all pattern-1 matches
against the uppercased query, then all pattern-2 matches, duplicates removed
keeping first occurrences. -/
def extract_equipment_codes (query : String) : List String :=
  let u := toUpperL query
  let f1 := findallAux equipP1 (u.length + 1) none u
  let f2 := findallAux equipP2 (u.length + 1) none u
  dedupKeepFirst ((f1 ++ f2).map String.mk)

/-! The filter set (spec §3) and the Confidence Scorer / time-filter
application that consume it (helpers.py lines 155-205,
filter_service.py lines 140-173). -/

/-- The filter dictionary built by `FilterService.extract_filters_from_query`.
Each field models the presence of the corresponding dict key: a key is
present exactly when its field is non-default (`months` is only ever stored
non-empty, `comparison_identifiers` only with at least two codes).
`date_range_full` is stored in the source as a pair of date strings later
reparsed by `pd.to_datetime`; it is modelled as the pair of date ordinals
directly. -/
structure Filters where
  months : List Nat := []
  date_range : Option (Nat × Nat) := none
  date_range_full : Option (Nat × Nat) := none
  day : Option Nat := none
  identifier : Option String := none
  comparison_identifiers : List String := []
  value_filters : List (String × String) := []
deriving DecidableEq

/-- Python's `not filters` on the filter dict: no key present. -/
def Filters.isEmptyDict (f : Filters) : Bool :=
  f.months.isEmpty && f.date_range.isNone && f.date_range_full.isNone &&
  f.day.isNone && f.identifier.isNone && f.comparison_identifiers.isEmpty &&
  f.value_filters.isEmpty

/-- Truthiness of `filters.get('months')`: key present and list non-empty. -/
def Filters.monthsActive (f : Filters) : Bool := !f.months.isEmpty

/-- Truthiness of `filters.get('day')`: a stored day of 0 is falsy in
Python, so it does not activate the day filter. -/
def Filters.dayActive (f : Filters) : Bool :=
  match f.day with
  | some d => d != 0
  | none => false

/-- The `ambiguous_terms` list of `calculate_confidence`
(helpers.py line 180). -/
def ambiguousTerms : List String :=
  ["itu", "ini", "nya", "tersebut", "yang tadi", "that", "this"]

/-- `any(term in query.lower() for term in ambiguous_terms)`. -/
def hasAmbiguousTerm (query : String) : Bool :=
  ambiguousTerms.any (fun t => containsSub (toLowerL query) t.toList)

/-- `df_filtered.isnull().sum().sum()`: the number of null cells. -/
def totalNulls (rows : List (List (Option String))) : Nat :=
  (rows.map (fun r => (r.filter Option.isNone).length)).sum

/-- The null ratio of `calculate_confidence` (helpers.py line 195):
nulls divided by `len(df) * len(df.columns)`. -/
def nullRatioOf (ncols : Nat) (rows : List (List (Option String))) : ℚ :=
  (totalNulls rows : ℚ) / ((rows.length : ℚ) * (ncols : ℚ))

/-- Step 1 of `calculate_confidence` (result-count factor, non-zero case):
`-20` below 3 rows, `-10` below 10. -/
def confStep1 (n : Nat) : Int :=
  if n < 3 then 100 - 20 else if n < 10 then 100 - 10 else 100

/-- Step 2 (filter clarity): `-15` when the filter dict is empty. -/
def confStep2 (filters : Filters) (c : Int) : Int :=
  if filters.isEmptyDict then c - 15 else c

/-- Step 3 (query ambiguity): `-10` on an ambiguity marker. -/
def confStep3 (query : String) (c : Int) : Int :=
  if hasAmbiguousTerm query then c - 10 else c

/-- Step 4 (method factor): `+10` capped at 100 for identifier search,
`-5` for LLM analysis. -/
def confStep4 (method : String) (c : Int) : Int :=
  if method = "identifier_search" then min (c + 10) 100
  else if method = "llm_analysis" then c - 5
  else c

/-- Step 5 (data quality): `-15` when more than 30% of the cells are null.
The source's `if result_count > 0` guard is always true on this branch (the
zero-row case returned earlier). -/
def confStep5 (ncols : Nat) (rows : List (List (Option String))) (c : Int) : Int :=
  if (3 / 10 : ℚ) < nullRatioOf ncols rows then c - 15 else c

/-- Step 6 (date-range coverage): `+5` capped at 100 for a month or
single-day filter. -/
def confStep6 (filters : Filters) (c : Int) : Int :=
  if filters.monthsActive || filters.dayActive then min (c + 5) 100 else c

/-- The score component of `calculate_confidence` (helpers.py lines 155-205):
the sequential penalty/bonus updates of the source, floored at 0 at the end.
All arithmetic on the Python float is integral, so the score is an `Int`. -/
def confidenceScore (ncols : Nat) (rows : List (List (Option String)))
    (filters : Filters) (query : String) (method : String) : Int :=
  if rows.length = 0 then 0
  else
    max (confStep6 filters (confStep5 ncols rows (confStep4 method
      (confStep3 query (confStep2 filters (confStep1 rows.length)))))) 0

/-- The reasons component of `calculate_confidence`, mirroring the same
branch structure. -/
def confidenceReasons (ncols : Nat) (rows : List (List (Option String)))
    (filters : Filters) (query : String) (method : String) : List String :=
  let n := rows.length
  if n = 0 then ["No matching data"]
  else
    let r1 : List String :=
      if n < 3 then [s!"Very limited data ({n} events)"]
      else if n < 10 then [s!"Limited data ({n} events)"]
      else []
    let r2 := if filters.isEmptyDict then r1 ++ ["No specific filters"] else r1
    let r3 := if hasAmbiguousTerm query then r2 ++ ["Ambiguous query"] else r2
    let r4 :=
      if method = "identifier_search" then r3 ++ ["Specific identifier search"]
      else if method = "llm_analysis" then r3 ++ ["LLM analysis"]
      else r3
    let r5 :=
      if (3 / 10 : ℚ) < nullRatioOf ncols rows then r4 ++ ["Many null values in data"]
      else r4
    if filters.monthsActive || filters.dayActive then r5 ++ ["Specific date filters"]
    else r5

/-- `calculate_confidence` (helpers.py lines 155-205):
`(confidence, reasons)`. -/
def calculate_confidence (ncols : Nat) (rows : List (List (Option String)))
    (filters : Filters) (query : String) (method : String) : Int × List String :=
  (confidenceScore ncols rows filters query method,
   confidenceReasons ncols rows filters query method)

/-- The accessor values of a pandas timestamp that the source reads:
`dt.date` (as an ordinal), `dt.month`, `dt.day`, `dt.hour`, `dt.dayofweek`. -/
structure DTm where
  dateOnly : Nat
  month : Nat
  day : Nat
  hour : Nat
  dayofweek : Nat
deriving DecidableEq

/-- One row of an event table, seen through its date column (the only column
the time filters and the anomaly detector read); a NaT / null date is
`none`. -/
structure Row where
  date : Option DTm
deriving DecidableEq

/-- `df[date_col].dt.month.isin(months)`: false on NaT. -/
def monthPass (months : List Nat) (r : Row) : Bool :=
  match r.date with
  | some d => months.contains d.month
  | none => false

/-- `(df[date_col].dt.day >= start_day) & (df[date_col].dt.day <= end_day)`:
false on NaT. -/
def dayRangePass (sd ed : Nat) (r : Row) : Bool :=
  match r.date with
  | some d => decide (sd ≤ d.day ∧ d.day ≤ ed)
  | none => false

/-- `(df[date_col].dt.date >= start) & (df[date_col].dt.date <= end)`:
false on NaT. -/
def datePass (sd ed : Nat) (r : Row) : Bool :=
  match r.date with
  | some d => decide (sd ≤ d.dateOnly ∧ d.dateOnly ≤ ed)
  | none => false

/-- `df[date_col].dt.day == day`: false on NaT. -/
def singleDayPass (dd : Nat) (r : Row) : Bool :=
  match r.date with
  | some d => d.day == dd
  | none => false

/-- `FilterService.apply_time_filters` (filter_service.py lines 140-173):
the month, date-range, full-date-range and single-day restrictions applied
in that order, each only when its key is truthy (`day` stored as 0 is falsy
in Python and applies no restriction); the table is returned unchanged when
no date column is bound. -/
def apply_time_filters (hasDateCol : Bool) (filters : Filters) (rows : List Row) :
    List Row :=
  if !hasDateCol then rows
  else
    let r1 :=
      if filters.monthsActive then rows.filter (monthPass filters.months) else rows
    let r2 :=
      match filters.date_range with
      | some (sd, ed) => r1.filter (dayRangePass sd ed)
      | none => r1
    let r3 :=
      match filters.date_range_full with
      | some (sd, ed) => r2.filter (datePass sd ed)
      | none => r2
    let r4 :=
      match filters.day with
      | some dd => if dd = 0 then r3 else r3.filter (singleDayPass dd)
      | none => r3
    r4

/-- The active restriction predicates of `apply_time_filters`, in application
order (used to reason about the sequential filtering). -/
def activeFilters (fs : Filters) : List (Row → Bool) :=
  (if fs.monthsActive then [monthPass fs.months] else []) ++
  (match fs.date_range with | some (sd, ed) => [dayRangePass sd ed] | none => []) ++
  (match fs.date_range_full with | some (sd, ed) => [datePass sd ed] | none => []) ++
  (match fs.day with
   | some dd => if dd = 0 then [] else [singleDayPass dd]
   | none => [])

/-- Sequential application of a list of row predicates as successive
`List.filter` passes. -/
def chainFilter : List (α → Bool) → List α → List α
  | [], l => l
  | p :: ps, l => chainFilter ps (l.filter p)

/-! The anomaly detector, `AnomalyService.detect_anomalies`
(anomaly_service.py lines 13-125). -/

/-- `df_valid = df_filtered[df_filtered[date_col].notna()]`: the date values
of the rows whose date is not null. -/
def validDates (rows : List Row) : List DTm := rows.filterMap Row.date

/-- The `date_only` values of a list of timestamps. -/
def datesOf (l : List DTm) : List Nat := l.map DTm.dateOnly

/-- The keys of `df_valid.groupby('date_only')`: the distinct calendar days
bearing at least one event, in ascending order (pandas groupby sorts its
keys). -/
def groupKeys (l : List DTm) : List Nat :=
  List.insertionSort (· ≤ ·) (dedupKeepFirst (datesOf l))

/-- The group size for one calendar day. -/
def countOn (l : List DTm) (d : Nat) : Nat :=
  (l.filter (fun x => x.dateOnly == d)).length

/-- `daily_counts = df_valid.groupby('date_only').size()`: one `(day, count)`
pair per day that has at least one event — days without events contribute no
entry at all. -/
def dailyCounts (l : List DTm) : List (Nat × Nat) :=
  (groupKeys l).map (fun d => (d, countOn l d))

/-- The count series of `daily_counts`. -/
def countsList (l : List DTm) : List Nat := (dailyCounts l).map Prod.snd

/-- `daily_counts.mean()`. -/
def meanQ (cs : List Nat) : ℚ := (cs.sum : ℚ) / (cs.length : ℚ)

/-- The square of `daily_counts.std()` (pandas default ddof=1).  `none`
models the NaN that pandas returns on fewer than two values; every
comparison involving NaN is false. -/
def varQ (cs : List Nat) : Option ℚ :=
  if cs.length < 2 then none
  else some ((cs.map (fun c => ((c : ℚ) - meanQ cs) ^ 2)).sum / ((cs.length : ℚ) - 1))

/-- The counts in ascending order. -/
def sortedAsc (cs : List Nat) : List Nat := List.insertionSort (· ≤ ·) cs

/-- `daily_counts.quantile(q)` with pandas' default linear interpolation:
at fractional position `(n-1)*q` of the sorted values. -/
def quantileQ (cs : List Nat) (q : ℚ) : ℚ :=
  let xs := sortedAsc cs
  if xs.length = 0 then 0
  else
    let h : ℚ := ((xs.length : ℚ) - 1) * q
    let i : Nat := (Int.floor h).toNat
    let g : ℚ := h - (i : ℚ)
    let xi : ℚ := (xs.getD i 0 : ℚ)
    let xi1 : ℚ := (xs.getD (i + 1) (xs.getD i 0) : ℚ)
    xi + g * (xi1 - xi)

/-- `daily_counts.median()`. -/
def medianQ (cs : List Nat) : ℚ := quantileQ cs (1 / 2)

/-- Method 1 (line 49-50): `count > mean + 2.5*std`.  With `std = √v ≥ 0`
this holds iff `count > mean ∧ (count-mean)² > 6.25·v`; false when the
standard deviation is NaN. -/
def zscoreFlagged (mean : ℚ) (varO : Option ℚ) (c : Nat) : Bool :=
  match varO with
  | none => false
  | some v => decide (mean < (c : ℚ) ∧ (25 / 4) * v < ((c : ℚ) - mean) ^ 2)

/-- Method 2 (lines 53-54): `count > q3 + 1.5*iqr`. -/
def iqrFlagged (q1 q3 : ℚ) (c : Nat) : Bool :=
  decide (q3 + (3 / 2) * (q3 - q1) < (c : ℚ))

/-- Method 3 (lines 57-58): `count > 3*median`. -/
def spikeFlagged (med : ℚ) (c : Nat) : Bool := decide (3 * med < (c : ℚ))

/-- The severity tiers of lines 91-99: `zscore = (count-mean)/std` when
`std > 0`, else 0; tier `critical` for z > 3, `high` for z > 2.5,
`medium` for z > 2, else `low`.  For `t > 0`, `zscore > t` holds iff
`v > 0 ∧ count > mean ∧ (count-mean)² > t²·v`. -/
def severityOf (mean : ℚ) (varO : Option ℚ) (c : Nat) : String :=
  match varO with
  | none => "low"
  | some v =>
    if 0 < v ∧ mean < (c : ℚ) ∧ 9 * v < ((c : ℚ) - mean) ^ 2 then "critical"
    else if 0 < v ∧ mean < (c : ℚ) ∧ (25 / 4) * v < ((c : ℚ) - mean) ^ 2 then "high"
    else if 0 < v ∧ mean < (c : ℚ) ∧ 4 * v < ((c : ℚ) - mean) ^ 2 then "medium"
    else "low"

/-- The day/count pairs flagged by the union of the three methods, in
ascending date order — the source iterates `sorted(all_anomaly_dates)` and
`dailyCounts` is already date-sorted, so filtering preserves that order. -/
def flaggedOf (l : List DTm) : List (Nat × Nat) :=
  (dailyCounts l).filter fun p =>
    zscoreFlagged (meanQ (countsList l)) (varQ (countsList l)) p.2 ||
    iqrFlagged (quantileQ (countsList l) (1 / 4)) (quantileQ (countsList l) (3 / 4)) p.2 ||
    spikeFlagged (medianQ (countsList l)) p.2

/-- One entry of the anomaly list: the fields the claims are about (the
report-only fields — expected range, percentage deviation, peak hour,
weekday — are omitted). -/
structure AnomalyEntry where
  date : Nat
  count : Nat
  severity : String
deriving DecidableEq

/-- The anomaly list sorted for the result.  The source sorts by the
2-decimal-rounded z-score, descending; mean and std are constant across
entries, so that order is descending count whenever `std > 0` (rounding can
merge neighbouring keys, in which case only the relative order of tied
entries may differ — no claim below depends on the order). -/
def entriesOf (l : List DTm) : List AnomalyEntry :=
  List.insertionSort (fun a b => b.count ≤ a.count)
    ((flaggedOf l).map fun p =>
      ⟨p.1, p.2, severityOf (meanQ (countsList l)) (varQ (countsList l)) p.2⟩)

/-- The result dictionary of `detect_anomalies`: the `detected` flag, the
`reason` key (absent on success) and the anomaly list. -/
structure AnomalyResult where
  detected : Bool
  reason : Option String
  anomalies : List AnomalyEntry
deriving DecidableEq

/-- `AnomalyService.detect_anomalies` (anomaly_service.py lines 13-125).
The insufficient-data gate at line 25 is `len(df_valid) < 7`: it counts the
ROWS with a non-null date, not distinct days. -/
def detect_anomalies (hasDateCol : Bool) (rows : List Row) : AnomalyResult :=
  if !hasDateCol then ⟨false, some "no_date_column", []⟩
  else if (validDates rows).length < 7 then ⟨false, some "insufficient_data", []⟩
  else if (flaggedOf (validDates rows)).isEmpty then ⟨false, some "no_anomalies", []⟩
  else ⟨true, none, entriesOf (validDates rows)⟩

/-! The comparison report, `build_enhanced_comparison_report` and
`build_detailed_breakdown` (comparison_service.py lines 236-368).  The
`results` dict is an insertion-ordered association list from entity label to
count (the per-entity breakdowns play no role in the summary table). -/

/-- `total_all = sum(r['count'] for r in results.values())` (line 279). -/
def totalAll (results : List (String × Nat)) : Nat := (results.map Prod.snd).sum

/-- Python `max` of a list of naturals (0 on the empty list, on which the
source would raise). -/
def listMax : List Nat → Nat
  | [] => 0
  | x :: xs => max x (listMax xs)

/-- Python `min` of a list of naturals (0 on the empty list, on which the
source would raise). -/
def listMin : List Nat → Nat
  | [] => 0
  | [x] => x
  | x :: y :: xs => min x (listMin (y :: xs))

/-- `max_count = max(r['count'] for r in results.values())` (line 290). -/
def maxCount (results : List (String × Nat)) : Nat := listMax (results.map Prod.snd)

/-- `min_count = min(r['count'] for r in results.values())` (line 291). -/
def minCount (results : List (String × Nat)) : Nat := listMin (results.map Prod.snd)

/-- The status tag of lines 297-302: every entity whose count equals the
maximum gets the highest tag (checked first), then the minimum gets the
lowest tag, else normal.  The 🔴/🟢/⚪ emoji and the translated word are
display only. -/
def statusTag (results : List (String × Nat)) (c : Nat) : String :=
  if c = maxCount results then "highest"
  else if c = minCount results then "lowest"
  else "normal"

/-- `sorted_results = sorted(results.items(), key=count, reverse=True)`
(line 289): stable descending sort by count. -/
def sortedResults (results : List (String × Nat)) : List (String × Nat) :=
  List.insertionSort (fun a b => b.2 ≤ a.2) results

/-- The summary-table rows (lines 293-304): entity, count and status tag in
sorted order. -/
def summaryRows (results : List (String × Nat)) : List (String × Nat × String) :=
  (sortedResults results).map fun ec => (ec.1, ec.2, statusTag results ec.2)

/-- `column.value_counts()`: the distinct non-null values with their
multiplicities, sorted by count descending (ties kept in first-appearance
order; pandas leaves tie order unspecified and nothing downstream depends
on it). -/
def valueCounts (col : List (Option String)) : List (String × Nat) :=
  let vals := col.filterMap id
  List.insertionSort (fun a b => b.2 ≤ a.2)
    ((dedupKeepFirst vals).map fun v => (v, (vals.filter (· == v)).length))

/-- The bound columns handed to `build_detailed_breakdown`: for each role of
the Key Column Map, `none` when the role is unbound or its column is absent,
otherwise the column's cell values. -/
structure BdInput where
  identifier : Option (List (Option String)) := none
  equipment_name : Option (List (Option String)) := none
  pi_tag : Option (List (Option String)) := none
  category : Option (List (Option String)) := none
  area : Option (List (Option String)) := none
  status : Option (List (Option String)) := none
  severity : Option (List (Option String)) := none
  limit_type : Option (List (Option String)) := none

/-- The breakdown dict: one value→count table per bound role. -/
structure Breakdown where
  identifier : Option (List (String × Nat)) := none
  equipment_name : Option (List (String × Nat)) := none
  pi_tag : Option (List (String × Nat)) := none
  category : Option (List (String × Nat)) := none
  area : Option (List (String × Nat)) := none
  status : Option (List (String × Nat)) := none
  severity : Option (List (String × Nat)) := none
  limit_type : Option (List (String × Nat)) := none

/-- A hierarchy level (lines 243-261): all values when `show_all`, else the
top 10. -/
def hierarchyCounts (show_all : Bool) (col : List (Option String)) :
    List (String × Nat) :=
  if show_all then valueCounts col else (valueCounts col).take 10

/-- An other dimension (lines 264-268): always `counts.head(5)`, regardless
of `show_all`. -/
def otherCounts (col : List (Option String)) : List (String × Nat) :=
  (valueCounts col).take 5

/-- `build_detailed_breakdown` (comparison_service.py lines 236-270). -/
def build_detailed_breakdown (inp : BdInput) (show_all : Bool) : Breakdown :=
  { identifier := inp.identifier.map (hierarchyCounts show_all)
    equipment_name := inp.equipment_name.map (hierarchyCounts show_all)
    pi_tag := inp.pi_tag.map (hierarchyCounts show_all)
    category := inp.category.map otherCounts
    area := inp.area.map otherCounts
    status := inp.status.map otherCounts
    severity := inp.severity.map otherCounts
    limit_type := inp.limit_type.map otherCounts }

/-- The distinct non-null values of a column (`dropna().unique()` order:
first appearance). -/
def distinctNonNull (col : List (Option String)) : List String :=
  dedupKeepFirst (col.filterMap id)

/-- A breakdown table lists exactly the distinct non-null values of the
column. -/
def listsAllDistinct (col : List (Option String)) (l : List (String × Nat)) : Prop :=
  ∀ v, v ∈ l.map Prod.fst ↔ v ∈ distinctNonNull col

/-- A breakdown table is the top-5 truncation of the column's distinct
values: its length is `min 5 #distinct` and it lists only distinct values. -/
def truncatedTo5 (col : List (Option String)) (l : List (String × Nat)) : Prop :=
  l.length = min 5 (distinctNonNull col).length ∧
  ∀ v ∈ l.map Prod.fst, v ∈ distinctNonNull col

/-! Concrete tables used to instantiate the theorems. -/

/-- A row whose event falls on calendar day `d`. -/
def mkRow (d : Nat) : Row := ⟨some ⟨d, 1, 1, 0, 0⟩⟩

/-- 36 events over 18 days: day 0 has 18 events, days 1-16 one event each,
day 17 two events.  The count series has mean 2 and variance 16 (std 4), and
day 0's count is exactly mean + 4*std. -/
def rowsC1 : List Row :=
  List.replicate 18 (mkRow 0) ++ (List.range 16).map (fun i => mkRow (i + 1)) ++
  [mkRow 17, mkRow 17]

/-- The daily count series of `rowsC1`. -/
def countsC1 : List Nat := [18, 1, 1, 1, 1, 1, 1, 1, 1, 1, 1, 1, 1, 1, 1, 1, 1, 2]

/-- Seven events all on one calendar day: 7 rows but a single distinct day. -/
def rowsOneDay : List Row := List.replicate 7 (mkRow 0)

/-- A column with six distinct values of multiplicities 6, 5, 4, 3, 2, 1. -/
def catColEx : List (Option String) :=
  List.replicate 6 (some "a") ++ List.replicate 5 (some "b") ++
  List.replicate 4 (some "c") ++ List.replicate 3 (some "d") ++
  List.replicate 2 (some "e") ++ [some "f"]

/-- Ten rows of one non-null cell each. -/
def rows10 : List (List (Option String)) := List.replicate 10 [some "x"]

/-- A filter set containing just a January month filter. -/
def filtersM1 : Filters := { months := [1] }

/-- A breakdown input binding the identifier and category roles to
`catColEx`. -/
def inpEx : BdInput := { identifier := some catColEx, category := some catColEx }

/-! Helper lemmas. -/

theorem mem_dedupAux [DecidableEq α] {a : α} :
    ∀ (seen l : List α), a ∈ dedupAux seen l ↔ a ∈ l ∧ a ∉ seen := by
  intro seen l
  induction l generalizing seen with
  | nil => simp [dedupAux]
  | cons x xs ih =>
    by_cases hx : x ∈ seen
    · rw [dedupAux, if_pos hx, ih]
      constructor
      · rintro ⟨h1, h2⟩
        exact ⟨.tail _ h1, h2⟩
      · rintro ⟨h1, h2⟩
        rcases List.mem_cons.mp h1 with rfl | h1
        · exact absurd hx h2
        · exact ⟨h1, h2⟩
    · rw [dedupAux, if_neg hx]
      by_cases hax : a = x
      · subst hax
        simp [hx]
      · simp only [List.mem_cons, hax, false_or]
        rw [ih]
        constructor
        · rintro ⟨h1, h2⟩
          exact ⟨h1, fun hs => h2 (.tail _ hs)⟩
        · rintro ⟨h1, h2⟩
          refine ⟨h1, fun hs => ?_⟩
          rcases List.mem_cons.mp hs with h | h
          · exact hax h
          · exact h2 h

theorem mem_dedupKeepFirst [DecidableEq α] {a : α} {l : List α} :
    a ∈ dedupKeepFirst l ↔ a ∈ l := by
  rw [dedupKeepFirst, mem_dedupAux]
  simp

theorem nodup_dedupAux [DecidableEq α] :
    ∀ (seen l : List α), (dedupAux seen l).Nodup := by
  intro seen l
  induction l generalizing seen with
  | nil => exact List.nodup_nil
  | cons x xs ih =>
    rw [dedupAux]
    by_cases hx : x ∈ seen
    · rw [if_pos hx]; exact ih seen
    · rw [if_neg hx]
      refine List.nodup_cons.mpr ⟨fun hmem => ?_, ih (x :: seen)⟩
      exact ((mem_dedupAux _ _).mp hmem).2 (List.mem_cons_self x seen)

theorem nodup_dedupKeepFirst [DecidableEq α] (l : List α) :
    (dedupKeepFirst l).Nodup := nodup_dedupAux [] l

theorem filter_comp (p q : α → Bool) (l : List α) :
    (l.filter p).filter q = l.filter (fun a => p a && q a) := by
  induction l with
  | nil => rfl
  | cons x xs ih =>
    by_cases hp : p x <;> by_cases hq : q x <;>
      simp [List.filter_cons, hp, hq, ih]

theorem chainFilter_append (ps qs : List (α → Bool)) (l : List α) :
    chainFilter (ps ++ qs) l = chainFilter qs (chainFilter ps l) := by
  induction ps generalizing l with
  | nil => rfl
  | cons p ps ih => rw [List.cons_append, chainFilter, chainFilter, ih]

theorem chainFilter_eq_filter (ps : List (α → Bool)) (l : List α) :
    chainFilter ps l = l.filter (fun a => ps.all (fun p => p a)) := by
  induction ps generalizing l with
  | nil => simp [chainFilter]
  | cons p ps ih =>
    rw [chainFilter, ih, filter_comp]
    apply List.filter_congr
    intro a _
    simp [List.all_cons]

theorem chainFilter_idem (ps : List (α → Bool)) (l : List α) :
    chainFilter ps (chainFilter ps l) = chainFilter ps l := by
  rw [chainFilter_eq_filter, chainFilter_eq_filter, filter_comp]
  apply List.filter_congr
  intro a _
  cases ps.all (fun p => p a) <;> rfl

theorem listMax_mem : ∀ (l : List Nat), l ≠ [] → listMax l ∈ l := by
  intro l hne
  induction l with
  | nil => exact absurd rfl hne
  | cons x xs ih =>
    rw [listMax]
    rcases xs with _ | ⟨y, ys⟩
    · simp [listMax]
    · rcases Nat.le_total x (listMax (y :: ys)) with h | h
      · rw [Nat.max_eq_right h]
        exact .tail _ (ih (by simp))
      · rw [Nat.max_eq_left h]
        exact List.mem_cons_self ..

/-! ### Claim C5 — date-range extraction of `"10-17 september"` -/

/-- Claim C5, counterexample: the claim states that
`parse_date_range_from_query "10-17 september"` returns a same-month result
`{start_day:10, end_day:17}`; the extractor actually returns `None` on this
query — its same-month branch only recognises the `tanggal D-D` phrasing and
its cross-month branch needs `D MONTH - D MONTH`.  (Checked against
helpers.py lines 75-128.) -/
theorem claim_C5_counterexample :
    parse_date_range_from_query "10-17 september" = none := by decide

/-- Claim C5 as amended: on `"10-17 september"` the date-range extractor
returns `None`; only the locale-specific `tanggal D-D` phrasing yields a
`same_month` result (with no month bound), and the `D-D MONTH` shape is
instead recognised by the comparison handler's own date pattern
(comparison_service.py line 34), which binds it to month 9. -/
theorem claim_C5_amended :
    parse_date_range_from_query "10-17 september" = none ∧
    parse_date_range_from_query "tanggal 10-17" = some (.same_month 10 17) ∧
    comparison_date_with_month "10-17 september" = some (10, 17, 9) := by
  refine ⟨by decide, by decide, by decide⟩

/-! ### Claim C6 — month-name variants -/

/-- Claim C6, counterexample: the claim states that a query containing any
of the ~40 variants — among them the 3-letter abbreviations 'jan', 'feb',
'apr', 'may', 'mei', 'okt', 'des' — yields the corresponding month.  The
source's guard `len(month_str) > 3` (helpers.py line 70) skips every variant
of length ≤ 3: the query "jan" yields the empty list, not `[1]`. -/
theorem claim_C6_counterexample :
    parse_month_from_query "jan" = [] ∧ (1 : Nat) ∉ parse_month_from_query "jan" := by
  decide

/-- Claim C6 as amended: for every query containing a month-name variant of
length at least 4 as a substring of the lowercased query, the result of the
month extractor contains the corresponding month number; variants of three
or fewer characters are deliberately skipped (`len(month_str) > 3`). -/
theorem claim_C6_amended (q name : String) (num : Nat)
    (hmem : (name, num) ∈ monthsMap) (hlen : 3 < name.length)
    (hsub : containsSub (toLowerL q) name.toList = true) :
    num ∈ parse_month_from_query q := by
  rw [parse_month_from_query, mem_dedupKeepFirst]
  exact List.mem_map_of_mem Prod.snd
    (List.mem_filter.mpr ⟨hmem, by
      simp only [Bool.and_eq_true, decide_eq_true_eq]
      exact ⟨hsub, hlen⟩⟩)

/-- Witness for the amended claim C6 at the query "trend september". -/
theorem claim_C6_amended_witness : 9 ∈ parse_month_from_query "trend september" :=
  claim_C6_amended "trend september" "september" 9 (by decide) (by decide) (by decide)

/-! ### Claim C7 — equipment-code extraction order -/

/-- Claim C7, counterexample: the claim states the codes come out in
first-occurrence order even when the two shapes interleave.  In
`"AB12 vs CD-34"` the plain-shape code AB12 occurs first (index 0, CD-34 at
index 8), yet the extractor returns `["CD-34", "AB12"]`: all matches of the
hyphenated pattern are collected before any match of the plain pattern
(helpers.py lines 41-44). -/
theorem claim_C7_counterexample :
    extract_equipment_codes "AB12 vs CD-34" = ["CD-34", "AB12"] ∧
    idxOfSub (toUpperL "AB12 vs CD-34") "AB12".toList = some 0 ∧
    idxOfSub (toUpperL "AB12 vs CD-34") "CD-34".toList = some 8 := by
  refine ⟨by decide, by decide, by decide⟩

/-- Claim C7 as amended: the extractor returns, with duplicates removed
keeping first occurrences, the hyphenated-shape matches in occurrence order
followed by the plain-shape matches in occurrence order — so queries whose
codes are all of one shape (such as the spec's `"Compare GB-651 vs EA-119 in
August"`) do come out in first-occurrence order, but interleaving the two
shapes puts every hyphenated code first. -/
theorem claim_C7_amended :
    (∀ q : String, (extract_equipment_codes q).Nodup) ∧
    extract_equipment_codes "Compare GB-651 vs EA-119 in August" = ["GB-651", "EA-119"] ∧
    extract_equipment_codes "AB12 vs CD-34" = ["CD-34", "AB12"] := by
  refine ⟨fun q => nodup_dedupKeepFirst _, by decide, by decide⟩

/-! ### Claim C3 — comparison summary table -/

theorem map_fst_valueCounts_perm (col : List (Option String)) :
    ((valueCounts col).map Prod.fst).Perm (distinctNonNull col) := by
  have h1 :=
    (List.perm_insertionSort (fun a b : String × Nat => b.2 ≤ a.2)
      ((dedupKeepFirst (col.filterMap id)).map
        (fun v => (v, ((col.filterMap id).filter (· == v)).length)))).map Prod.fst
  rw [valueCounts, distinctNonNull]
  rw [List.map_map] at h1
  rw [show (Prod.fst ∘ fun v => (v, ((col.filterMap id).filter (· == v)).length)) =
      (id : String → String) from rfl, List.map_id] at h1
  exact h1

theorem length_valueCounts (col : List (Option String)) :
    (valueCounts col).length = (distinctNonNull col).length := by
  have := (map_fst_valueCounts_perm col).length_eq
  simpa [List.length_map] using this

theorem mem_fst_valueCounts (col : List (Option String)) (v : String) :
    v ∈ (valueCounts col).map Prod.fst ↔ v ∈ distinctNonNull col :=
  (map_fst_valueCounts_perm col).mem_iff

/-- Claim C3, counterexample: the claim states that a tie among
maximum-count entities is broken so that exactly one entity carries the
highest tag.  The source tags every entity whose count equals the maximum
(`if count == max_count`, comparison_service.py line 297): with two entities
of equal counts both summary rows carry the highest tag. -/
theorem claim_C3_counterexample :
    ((summaryRows [("A", 5), ("B", 5)]).filter (fun r => r.2.2 == "highest")).length = 2 := by
  decide

/-- Claim C3 as amended: for every comparison result with at least two
entities, the counts shown in the summary table sum to the executive
summary's total (which is the sum of the per-entity counts), and a summary
row carries the highest tag exactly when its count equals the maximum count
— so on a tie every tied entity carries the tag, not exactly one — with at
least one row carrying it. -/
theorem claim_C3_amended (results : List (String × Nat)) (h2 : 2 ≤ results.length) :
    ((summaryRows results).map (fun r => r.2.1)).sum = totalAll results ∧
    (∀ r ∈ summaryRows results, (r.2.2 = "highest" ↔ r.2.1 = maxCount results)) ∧
    ∃ r ∈ summaryRows results, r.2.2 = "highest" := by
  refine ⟨?_, ?_, ?_⟩
  · have h1 : (summaryRows results).map (fun r => r.2.1) =
        (sortedResults results).map Prod.snd := by
      rw [summaryRows, List.map_map]; rfl
    rw [h1, totalAll, sortedResults]
    exact ((List.perm_insertionSort _ results).map Prod.snd).sum_eq
  · intro r hr
    rcases List.mem_map.mp hr with ⟨ec, _, rfl⟩
    show statusTag results ec.2 = "highest" ↔ ec.2 = maxCount results
    rw [statusTag]
    by_cases h : ec.2 = maxCount results
    · rw [if_pos h]
      exact iff_of_true rfl h
    · rw [if_neg h]
      refine iff_of_false ?_ h
      by_cases hmin : ec.2 = minCount results
      · rw [if_pos hmin]; decide
      · rw [if_neg hmin]; decide
  · have hne : results.map Prod.snd ≠ [] := by
      cases results with
      | nil => simp at h2
      | cons x xs => simp
    have hmax : maxCount results ∈ results.map Prod.snd := listMax_mem _ hne
    rcases List.mem_map.mp hmax with ⟨ec, hec, heq⟩
    refine ⟨(ec.1, ec.2, statusTag results ec.2), ?_, ?_⟩
    · rw [summaryRows]
      exact List.mem_map_of_mem _ ((List.mem_insertionSort _).mpr hec)
    · show statusTag results ec.2 = "highest"
      rw [statusTag, if_pos heq]

/-- Witness for the amended claim C3 at a two-entity result. -/
theorem claim_C3_amended_witness :
    ((summaryRows [("A", 5), ("B", 3)]).map (fun r => r.2.1)).sum =
      totalAll [("A", 5), ("B", 3)] ∧
    (∀ r ∈ summaryRows [("A", 5), ("B", 3)],
      (r.2.2 = "highest" ↔ r.2.1 = maxCount [("A", 5), ("B", 3)])) ∧
    ∃ r ∈ summaryRows [("A", 5), ("B", 3)], r.2.2 = "highest" :=
  claim_C3_amended [("A", 5), ("B", 3)] (by decide)

/-! ### Claim C4 — breakdown truncation in comparison mode -/

theorem hierarchy_complete (col : List (Option String)) :
    listsAllDistinct col (hierarchyCounts true col) := by
  intro v
  show v ∈ (valueCounts col).map Prod.fst ↔ _
  exact mem_fst_valueCounts col v

theorem other_truncated (col : List (Option String)) :
    truncatedTo5 col (otherCounts col) := by
  constructor
  · rw [otherCounts, List.length_take, length_valueCounts]
  · intro v hv
    rw [otherCounts] at hv
    rcases List.mem_map.mp hv with ⟨p, hp, rfl⟩
    exact (mem_fst_valueCounts col p.1).mp
      (List.mem_map_of_mem _ (List.take_subset _ _ hp))

/-- Claim C4, counterexample: the claim states that in comparison mode
(`show_all=True`) the breakdown lists every distinct value of every bound
dimension, including category/area/status/severity/limit_type.  The other
dimensions are truncated with `counts.head(5)` unconditionally
(comparison_service.py line 268): for a category column with six distinct
values the breakdown lists five and the value "f" is missing. -/
theorem claim_C4_counterexample :
    ((build_detailed_breakdown { category := some catColEx } true).category.getD
      []).length = 5 ∧
    "f" ∈ distinctNonNull catColEx ∧
    "f" ∉ ((build_detailed_breakdown { category := some catColEx } true).category.getD
      []).map Prod.fst := by
  refine ⟨by decide, by decide, by decide⟩

/-- Claim C4 as amended: with `show_all` set (comparison mode), the three
identifier-hierarchy levels list every distinct value of their column, but
the category/area/status/severity/limit_type dimensions are always truncated
to the top 5 values, even in comparison mode. -/
theorem claim_C4_amended (inp : BdInput) :
    (∀ col, inp.identifier = some col →
      ∃ l, (build_detailed_breakdown inp true).identifier = some l ∧
        listsAllDistinct col l) ∧
    (∀ col, inp.equipment_name = some col →
      ∃ l, (build_detailed_breakdown inp true).equipment_name = some l ∧
        listsAllDistinct col l) ∧
    (∀ col, inp.pi_tag = some col →
      ∃ l, (build_detailed_breakdown inp true).pi_tag = some l ∧
        listsAllDistinct col l) ∧
    (∀ col, inp.category = some col →
      ∃ l, (build_detailed_breakdown inp true).category = some l ∧
        truncatedTo5 col l) ∧
    (∀ col, inp.area = some col →
      ∃ l, (build_detailed_breakdown inp true).area = some l ∧
        truncatedTo5 col l) ∧
    (∀ col, inp.status = some col →
      ∃ l, (build_detailed_breakdown inp true).status = some l ∧
        truncatedTo5 col l) ∧
    (∀ col, inp.severity = some col →
      ∃ l, (build_detailed_breakdown inp true).severity = some l ∧
        truncatedTo5 col l) ∧
    (∀ col, inp.limit_type = some col →
      ∃ l, (build_detailed_breakdown inp true).limit_type = some l ∧
        truncatedTo5 col l) := by
  refine ⟨?_, ?_, ?_, ?_, ?_, ?_, ?_, ?_⟩ <;> intro col hcol
  · exact ⟨_, by simp [build_detailed_breakdown, hcol], hierarchy_complete col⟩
  · exact ⟨_, by simp [build_detailed_breakdown, hcol], hierarchy_complete col⟩
  · exact ⟨_, by simp [build_detailed_breakdown, hcol], hierarchy_complete col⟩
  · exact ⟨_, by simp [build_detailed_breakdown, hcol], other_truncated col⟩
  · exact ⟨_, by simp [build_detailed_breakdown, hcol], other_truncated col⟩
  · exact ⟨_, by simp [build_detailed_breakdown, hcol], other_truncated col⟩
  · exact ⟨_, by simp [build_detailed_breakdown, hcol], other_truncated col⟩
  · exact ⟨_, by simp [build_detailed_breakdown, hcol], other_truncated col⟩

/-- Witness for the amended claim C4 at a breakdown input binding the
identifier and category roles to the six-value column. -/
theorem claim_C4_amended_witness :
    (∃ l, (build_detailed_breakdown inpEx true).identifier = some l ∧
      listsAllDistinct catColEx l) ∧
    (∃ l, (build_detailed_breakdown inpEx true).category = some l ∧
      truncatedTo5 catColEx l) :=
  ⟨(claim_C4_amended inpEx).1 catColEx rfl,
   (claim_C4_amended inpEx).2.2.2.1 catColEx rfl⟩

/-! ### Claim C8 — confidence score bounds -/

/-- Claim C8, confirmed: the confidence score always lies in [0, 100]
(`max(confidence, 0)` floors it and every bonus is capped at 100); it is
exactly 0 on an empty filtered table regardless of the other inputs; and
with at least 10 rows, a non-empty filter set, no ambiguity terms, the
`identifier_search` method and a null ratio of at most 30% it is exactly
100.  The `0 < ncols` hypothesis records that the source's null-ratio
division requires at least one column. -/
theorem claim_C8 (ncols : Nat) (rows : List (List (Option String)))
    (filters : Filters) (query method : String) (_hc : 0 < ncols) :
    (0 ≤ (calculate_confidence ncols rows filters query method).1 ∧
      (calculate_confidence ncols rows filters query method).1 ≤ 100) ∧
    (rows = [] → (calculate_confidence ncols rows filters query method).1 = 0) ∧
    (10 ≤ rows.length → filters.isEmptyDict = false →
      hasAmbiguousTerm query = false → method = "identifier_search" →
      nullRatioOf ncols rows ≤ 3 / 10 →
      (calculate_confidence ncols rows filters query method).1 = 100) := by
  have h1b : ∀ n, confStep1 n ≤ 100 := by
    intro n; rw [confStep1]; split_ifs <;> omega
  have h2b : ∀ c : Int, c ≤ 100 → confStep2 filters c ≤ 100 := by
    intro c h; rw [confStep2]; split_ifs <;> omega
  have h3b : ∀ c : Int, c ≤ 100 → confStep3 query c ≤ 100 := by
    intro c h; rw [confStep3]; split_ifs <;> omega
  have h4b : ∀ c : Int, c ≤ 100 → confStep4 method c ≤ 100 := by
    intro c h; rw [confStep4]; split_ifs <;> omega
  have h5b : ∀ c : Int, c ≤ 100 → confStep5 ncols rows c ≤ 100 := by
    intro c h; rw [confStep5]; split_ifs <;> omega
  have h6b : ∀ c : Int, c ≤ 100 → confStep6 filters c ≤ 100 := by
    intro c h; rw [confStep6]; split_ifs <;> omega
  refine ⟨?_, ?_, ?_⟩
  · show 0 ≤ confidenceScore ncols rows filters query method ∧
      confidenceScore ncols rows filters query method ≤ 100
    rw [confidenceScore]
    split_ifs with h0
    · omega
    · have := h6b _ (h5b _ (h4b _ (h3b _ (h2b _ (h1b rows.length)))))
      omega
  · intro h
    show confidenceScore ncols rows filters query method = 0
    simp [confidenceScore, h]
  · intro h10 hfe hamb hm hratio
    show confidenceScore ncols rows filters query method = 100
    have e1 : confStep1 rows.length = 100 := by
      rw [confStep1, if_neg (show ¬rows.length < 3 by omega),
        if_neg (show ¬rows.length < 10 by omega)]
    have e2 : confStep2 filters 100 = 100 := by
      rw [confStep2, hfe]; simp
    have e3 : confStep3 query 100 = 100 := by
      rw [confStep3, hamb]; simp
    have e4 : confStep4 method 100 = 100 := by
      rw [confStep4, if_pos hm]; omega
    have e5 : confStep5 ncols rows 100 = 100 := by
      rw [confStep5, if_neg (not_lt.mpr hratio)]
    have e6 : confStep6 filters 100 = 100 := by
      rw [confStep6]; split_ifs <;> omega
    rw [confidenceScore, if_neg (show ¬rows.length = 0 by omega),
      e1, e2, e3, e4, e5, e6]
    rfl

/-- Witness for claim C8: ten one-cell rows with no nulls, a month filter,
an unambiguous query and the identifier-search method score exactly 100. -/
theorem claim_C8_witness :
    (calculate_confidence 1 rows10 filtersM1 "count" "identifier_search").1 = 100 :=
  (claim_C8 1 rows10 filtersM1 "count" "identifier_search" (by decide)).2.2
    (by decide) (by decide) (by decide) rfl
    (by norm_num [nullRatioOf, show totalNulls rows10 = 0 from by decide,
          show rows10.length = 10 from by decide])

/-! ### Claim C9 — idempotence of the time filters -/

theorem apply_eq_chain (fs : Filters) (rows : List Row) :
    apply_time_filters true fs rows = chainFilter (activeFilters fs) rows := by
  by_cases hm : fs.monthsActive <;>
  rcases hdr : fs.date_range with _ | ⟨sd, ed⟩ <;>
  rcases hdf : fs.date_range_full with _ | ⟨s2, e2⟩ <;>
  rcases hd : fs.day with _ | dd <;>
  simp [apply_time_filters, activeFilters, chainFilter_append, chainFilter,
    hm, hdr, hdf, hd] <;>
  · by_cases hdd : dd = 0 <;> simp [hdd, chainFilter]

/-- Claim C9, confirmed: applying the time filters of a filter set and then
applying the same filter set again yields the same table as applying them
once — each active restriction is a row-wise `filter`, and a composition of
filters is idempotent. -/
theorem claim_C9 (hasDateCol : Bool) (fs : Filters) (rows : List Row) :
    apply_time_filters hasDateCol fs (apply_time_filters hasDateCol fs rows) =
      apply_time_filters hasDateCol fs rows := by
  cases hasDateCol with
  | false => simp [apply_time_filters]
  | true => rw [apply_eq_chain, apply_eq_chain, chainFilter_idem]

/-! ### Claims C1, C2, C10 — the anomaly detector -/

theorem mem_groupKeys {l : List DTm} {d : Nat} :
    d ∈ groupKeys l ↔ d ∈ datesOf l := by
  rw [groupKeys, List.mem_insertionSort, mem_dedupKeepFirst]

theorem countOn_pos {l : List DTm} {d : Nat} (h : d ∈ datesOf l) :
    1 ≤ countOn l d := by
  rcases List.mem_map.mp h with ⟨x, hx, rfl⟩
  have hmem : x ∈ l.filter (fun y => y.dateOnly == x.dateOnly) :=
    List.mem_filter.mpr ⟨hx, by simp⟩
  have := List.length_pos.mpr (List.ne_nil_of_mem hmem)
  rw [countOn]
  omega

theorem quantileQ_single (x : Nat) (q : ℚ) : quantileQ [x] q = x := by
  rw [quantileQ]
  norm_num [sortedAsc, List.insertionSort, List.orderedInsert, List.getD]

/-- The success branch of `detect_anomalies`: at least 7 valid rows and a
non-empty flagged set yield the detected result. -/
theorem detect_result (rows : List Row) (h7 : 7 ≤ (validDates rows).length)
    (hne : (flaggedOf (validDates rows)).isEmpty = false) :
    detect_anomalies true rows = ⟨true, none, entriesOf (validDates rows)⟩ := by
  rw [detect_anomalies, if_neg (by simp), if_neg (by omega),
    if_neg (by rw [hne]; exact Bool.false_ne_true)]

/-- Claim C1, confirmed (in the strengthened form that implies the claim):
for every table with at least 7 valid rows whose daily count series has
positive variance `v` and contains a day `d0` whose count `c0` equals
`mean + 4*std` — expressed exactly as `c0 > mean ∧ (c0-mean)² = 16·v` — the
detector reports `detected = true` and that day appears in the anomaly list
with severity "critical" (its z-score is 4 > 3), because `c0` exceeds the
`mean + 2.5·std` z-score threshold (`(c0-mean)² = 16v > 6.25v`).  The claim's
further hypotheses ("exactly one such day, all others near the mean") are
not needed; note a series containing a day at exactly mean + 4·std with
positive variance necessarily has at least 18 days, so such a table always
passes the 7-row gate. -/
theorem claim_C1 (rows : List Row) (v : ℚ) (d0 c0 : Nat)
    (h7 : 7 ≤ (validDates rows).length)
    (hvar : varQ (countsList (validDates rows)) = some v)
    (hvpos : 0 < v)
    (hmem : (d0, c0) ∈ dailyCounts (validDates rows))
    (hgt : meanQ (countsList (validDates rows)) < (c0 : ℚ))
    (heq : ((c0 : ℚ) - meanQ (countsList (validDates rows))) ^ 2 = 16 * v) :
    (detect_anomalies true rows).detected = true ∧
    ∃ e ∈ (detect_anomalies true rows).anomalies,
      e.date = d0 ∧ e.count = c0 ∧ e.severity = "critical" := by
  have hz : zscoreFlagged (meanQ (countsList (validDates rows)))
      (varQ (countsList (validDates rows))) c0 = true := by
    rw [hvar, zscoreFlagged]
    exact decide_eq_true ⟨hgt, by rw [heq]; linarith⟩
  have hmemflag : (d0, c0) ∈ flaggedOf (validDates rows) := by
    rw [flaggedOf]
    exact List.mem_filter.mpr ⟨hmem, by simp [hz]⟩
  have hne : (flaggedOf (validDates rows)).isEmpty = false := by
    rcases hfl : flaggedOf (validDates rows) with _ | ⟨p, ps⟩
    · rw [hfl] at hmemflag; cases hmemflag
    · rfl
  have hres := detect_result rows h7 hne
  have hsev : severityOf (meanQ (countsList (validDates rows)))
      (varQ (countsList (validDates rows))) c0 = "critical" := by
    rw [hvar, severityOf, if_pos ⟨hvpos, hgt, by rw [heq]; linarith⟩]
  refine ⟨by rw [hres], ?_⟩
  refine ⟨⟨d0, c0, severityOf (meanQ (countsList (validDates rows)))
    (varQ (countsList (validDates rows))) c0⟩, ?_, rfl, rfl, hsev⟩
  rw [hres]
  show _ ∈ entriesOf (validDates rows)
  rw [entriesOf, List.mem_insertionSort]
  exact List.mem_map.mpr ⟨(d0, c0), hmemflag, rfl⟩

/-- Witness for claim C1: 36 events over 18 days (`rowsC1`), whose count
series has mean 2, variance 16 and a single day (day 0, 18 events) at
exactly mean + 4·std. -/
theorem claim_C1_witness :
    (detect_anomalies true rowsC1).detected = true ∧
    ∃ e ∈ (detect_anomalies true rowsC1).anomalies,
      e.date = 0 ∧ e.count = 18 ∧ e.severity = "critical" := by
  have hcounts : countsList (validDates rowsC1) = countsC1 := by decide
  have hm : meanQ countsC1 = 2 := by
    rw [meanQ]
    norm_num [countsC1]
  have hv : varQ countsC1 = some 16 := by
    rw [varQ, if_neg (by decide), hm]
    norm_num [countsC1]
  exact claim_C1 rowsC1 16 0 18 (by decide) (by rw [hcounts, hv]) (by norm_num)
    (by decide) (by rw [hcounts, hm]; norm_num) (by rw [hcounts, hm]; norm_num)

/-- Claim C2, counterexample: the claim states that fewer than 7 distinct
days of non-null dates (even with 7 or more rows) yields
`{detected:false, reason:"insufficient_data"}`.  The source's gate is
`len(df_valid) < 7` — a row count (anomaly_service.py line 25): seven rows
on a single calendar day (1 distinct day < 7) pass the gate and reach the
statistical analysis, which reports reason "no_anomalies" instead. -/
theorem claim_C2_counterexample :
    (dedupKeepFirst (datesOf (validDates rowsOneDay))).length = 1 ∧
    (validDates rowsOneDay).length = 7 ∧
    (detect_anomalies true rowsOneDay).reason = some "no_anomalies" := by
  refine ⟨by decide, by decide, ?_⟩
  have hdc : dailyCounts (validDates rowsOneDay) = [(0, 7)] := by decide
  have hcs : countsList (validDates rowsOneDay) = [7] := by decide
  have h1 : zscoreFlagged (meanQ [7]) (varQ [7]) 7 = false := rfl
  have h2 : iqrFlagged (quantileQ [7] (1 / 4)) (quantileQ [7] (3 / 4)) 7 = false := by
    rw [quantileQ_single, quantileQ_single, iqrFlagged]
    norm_num
  have h3 : spikeFlagged (medianQ [7]) 7 = false := by
    rw [medianQ, quantileQ_single, spikeFlagged]
    norm_num
  have hflag : flaggedOf (validDates rowsOneDay) = [] := by
    rw [flaggedOf, hdc, hcs]
    simp only [List.filter_cons, List.filter_nil, h1, h2, h3, Bool.or_false,
      Bool.false_eq_true, if_false]
  rw [detect_anomalies, if_neg (by simp), if_neg (by decide),
    if_pos (by rw [hflag]; rfl)]

/-- Claim C2 as amended: the insufficient-data gate counts rows with
non-null dates, not distinct days — fewer than 7 such rows yield
`{detected:false, reason:"insufficient_data"}` regardless of how many
distinct days they span, and with at least 7 such rows the detector
proceeds to the statistical analysis (its result is then detection or
"no_anomalies", never "insufficient_data"). -/
theorem claim_C2_amended (rows : List Row) :
    ((validDates rows).length < 7 →
      detect_anomalies true rows = ⟨false, some "insufficient_data", []⟩) ∧
    (7 ≤ (validDates rows).length →
      (detect_anomalies true rows).reason = none ∨
        (detect_anomalies true rows).reason = some "no_anomalies") := by
  constructor
  · intro h
    rw [detect_anomalies, if_neg (by simp), if_pos h]
  · intro h
    rw [detect_anomalies, if_neg (by simp), if_neg (by omega)]
    by_cases hemp : (flaggedOf (validDates rows)).isEmpty
    · rw [if_pos hemp]
      right; rfl
    · rw [if_neg hemp]
      left; rfl

/-- Witness for the amended claim C2: six valid rows are insufficient, and
seven rows on one day pass the gate (ending in "no_anomalies"). -/
theorem claim_C2_amended_witness :
    detect_anomalies true (List.replicate 6 (mkRow 0)) =
      ⟨false, some "insufficient_data", []⟩ ∧
    ((detect_anomalies true rowsOneDay).reason = none ∨
      (detect_anomalies true rowsOneDay).reason = some "no_anomalies") :=
  ⟨(claim_C2_amended (List.replicate 6 (mkRow 0))).1 (by decide),
   (claim_C2_amended rowsOneDay).2 (by decide)⟩

/-- Claim C10, confirmed: the per-day count series is built only from
calendar days with at least one event.  A day `d` bearing no event
contributes no entry to `daily_counts` (hence none of the statistics sees a
0 for it), every entry of `daily_counts` has count at least 1, and `d` can
never appear in the anomaly list. -/
theorem claim_C10 (rows : List Row) (d : Nat)
    (hd : d ∉ datesOf (validDates rows)) :
    (∀ c, (d, c) ∉ dailyCounts (validDates rows)) ∧
    (∀ p ∈ dailyCounts (validDates rows), 1 ≤ p.2) ∧
    (∀ e ∈ (detect_anomalies true rows).anomalies, e.date ≠ d) := by
  have hkeys : ∀ p ∈ dailyCounts (validDates rows),
      p.1 ∈ datesOf (validDates rows) ∧ 1 ≤ p.2 := by
    intro p hp
    rcases List.mem_map.mp hp with ⟨k, hk, rfl⟩
    have hk2 : k ∈ datesOf (validDates rows) := mem_groupKeys.mp hk
    exact ⟨hk2, countOn_pos hk2⟩
  refine ⟨fun c hc => hd (hkeys _ hc).1, fun p hp => (hkeys p hp).2, ?_⟩
  intro e he
  by_cases h7 : (validDates rows).length < 7
  · rw [detect_anomalies, if_neg (by simp), if_pos h7] at he
    cases he
  · by_cases hemp : (flaggedOf (validDates rows)).isEmpty
    · rw [detect_anomalies, if_neg (by simp), if_neg h7, if_pos hemp] at he
      cases he
    · rw [detect_anomalies, if_neg (by simp), if_neg h7, if_neg hemp] at he
      have he2 : e ∈ entriesOf (validDates rows) := he
      rw [entriesOf, List.mem_insertionSort] at he2
      rcases List.mem_map.mp he2 with ⟨p, hp, rfl⟩
      have hpd : p ∈ dailyCounts (validDates rows) := by
        rw [flaggedOf] at hp
        exact (List.mem_filter.mp hp).1
      exact fun hdate => hd (hdate ▸ (hkeys p hpd).1)

/-- Witness for claim C10: `rowsOneDay` has events only on day 0, so day 5
has no entry and can appear in no anomaly list. -/
theorem claim_C10_witness :
    (∀ c, (5, c) ∉ dailyCounts (validDates rowsOneDay)) ∧
    (∀ p ∈ dailyCounts (validDates rowsOneDay), 1 ≤ p.2) ∧
    (∀ e ∈ (detect_anomalies true rowsOneDay).anomalies, e.date ≠ 5) :=
  claim_C10 rowsOneDay 5 (by decide)

end EventAnalyzer
